import Mathlib

/-!
# Verification of the CERT-AI adaptive assessment engine

Shallow embedding of the core algorithms of the CERT-AI backend:

* `services/elo.py` — ELO rating engine and weighted pass-probability estimator
* `services/review_queue.py` — SM-2 style spaced-repetition scheduler
* `services/simulation.py` — simulation-exam session manager
* `services/question_selector.py` — adaptive question selection

Python floats are modelled as rationals (ℚ) where the code is purely
arithmetic (review queue, simulation scoring, quotas, selection), and as
reals (ℝ) where the code uses the transcendental `10 ** x` (the ELO
expected-score formula).  Python's banker's rounding (`round`) and
truncating `int()` conversion are modelled explicitly.
-/

namespace CertAI

/-- Python's `round` on a rational: round half to even (banker's rounding). -/
def pyRound (q : ℚ) : ℤ :=
  let n := ⌊q⌋
  let r := q - n
  if r < 1/2 then n
  else if 1/2 < r then n + 1
  else if n % 2 = 0 then n else n + 1

/-- Python's `round(q, d)`: round to `d` decimal digits, half to even. -/
def pyRoundTo (q : ℚ) (d : ℕ) : ℚ :=
  (pyRound (q * (10 : ℚ) ^ d) : ℚ) / (10 : ℚ) ^ d

/-- Python's `int()` conversion on a rational: truncation toward zero. -/
def ratTrunc (q : ℚ) : ℤ :=
  if 0 ≤ q then ⌊q⌋ else ⌈q⌉

/-! ## `services/review_queue.py` -/

/-- The mutable per-(learner, item) state of a review-queue row:
`ease_factor`, `interval_hours`, `repetitions`, `mastery_score`. -/
structure ReviewEntry where
  ease_factor : ℚ
  interval_hours : ℤ
  repetitions : ℤ
  mastery_score : ℚ
  deriving Repr, DecidableEq

/-- The entry created by `add_to_review_queue`
(`interval_hours=24, ease_factor=2.5, repetitions=0, mastery_score=0.0`). -/
def initReviewEntry : ReviewEntry :=
  { ease_factor := 5/2, interval_hours := 24, repetitions := 0, mastery_score := 0 }

/-- The SM-2 state update applied by `update_review_after_answer` to an
existing entry (the fields written back to the `review_queue` row; the
stored `mastery_score` is `round(mastery, 3)`). -/
def update_review_step (e : ReviewEntry) (is_correct : Bool) : ReviewEntry :=
  if is_correct then
    { ease_factor := min (5/2) (e.ease_factor + 1/10)
      interval_hours := ratTrunc ((e.interval_hours : ℚ) * e.ease_factor)
      repetitions := e.repetitions + 1
      mastery_score := pyRoundTo (7/10 * e.mastery_score + 3/10 * 1) 3 }
  else
    { ease_factor := max (13/10) (e.ease_factor - 2/10)
      interval_hours := 24
      repetitions := e.repetitions
      mastery_score := pyRoundTo (7/10 * e.mastery_score + 3/10 * 0) 3 }

/-- A persisted review-queue row: primary key `id`, the (learner, item)
pair, and the scheduling state. -/
structure QueueRow where
  id : ℕ
  user_id : String
  question_id : String
  entry : ReviewEntry
  deriving Repr, DecidableEq

/-- Function `update_review_after_answer`: select the rows matching
`(user_id, question_id)`; if none, return with no write; otherwise apply
the SM-2 step to the first match (`result.data[0]`) and update that row
by its `id`. -/
def update_review_after_answer (store : List QueueRow) (uid qid : String)
    (is_correct : Bool) : List QueueRow :=
  match store.find? (fun r => r.user_id == uid && r.question_id == qid) with
  | none => store
  | some row =>
      store.map (fun r =>
        if r.id == row.id then { r with entry := update_review_step r.entry is_correct } else r)

/-- Fold a finite sequence of review outcomes over an entry. -/
def applyReviews (e : ReviewEntry) (outcomes : List Bool) : ReviewEntry :=
  outcomes.foldl update_review_step e

/-! ## `config.py` constants -/

/-- Constant `ELO_K_FACTOR: int = 32`. -/
def ELO_K_FACTOR : ℤ := 32

/-- Constant `ELO_DEFAULT_SKILL: float = 1000.0`. -/
def ELO_DEFAULT_SKILL : ℚ := 1000

/-- Constant `ELO_DIFFICULTY_RANGE: float = 50.0`. -/
def ELO_DIFFICULTY_RANGE : ℚ := 50

/-! ## `services/elo.py`

The expected-score formula uses the transcendental `10 ** x`, so this
module is embedded over ℝ. -/

/-- Constant `MIN_QUESTIONS_FOR_PREDICTION = 20`. -/
def MIN_QUESTIONS_FOR_PREDICTION : ℤ := 20

/-- Constant `RELIABLE_PREDICTION_THRESHOLD = 50`. -/
def RELIABLE_PREDICTION_THRESHOLD : ℤ := 50

/-- Table `PL300_DOMAIN_WEIGHTS`, in dict insertion order. -/
noncomputable def PL300_DOMAIN_WEIGHTS : List (String × ℝ) :=
  [("Prepare the Data (25-30%)", 0.275),
   ("Model the Data (25-30%)", 0.275),
   ("Visualize and Analyze the Data (25-30%)", 0.275),
   ("Deploy and Maintain Assets (15-20%)", 0.175)]

/-- Function `expected_score`: `1.0 / (1.0 + 10.0 ** ((question_difficulty - user_skill) / 400.0))`. -/
noncomputable def expected_score (user_skill question_difficulty : ℝ) : ℝ :=
  1 / (1 + (10 : ℝ) ^ ((question_difficulty - user_skill) / 400))

/-- Function `update_ratings`: `actual = 1.0 if is_correct else 0.0`;
`new_user_skill = user_skill + K·(actual − expected)`;
`new_question_difficulty = question_difficulty + K·(expected − actual)`. -/
noncomputable def update_ratings (user_skill question_difficulty : ℝ)
    (is_correct : Bool) : ℝ × ℝ :=
  (user_skill + (ELO_K_FACTOR : ℝ) *
      ((if is_correct then (1 : ℝ) else 0) - expected_score user_skill question_difficulty),
   question_difficulty + (ELO_K_FACTOR : ℝ) *
      (expected_score user_skill question_difficulty - (if is_correct then (1 : ℝ) else 0)))

open Classical in
/-- Python's `round` on a real, half to even (banker's rounding). -/
noncomputable def pyRoundR (x : ℝ) : ℤ :=
  let n := ⌊x⌋
  let r := x - n
  if r < 1/2 then n
  else if 1/2 < r then n + 1
  else if n % 2 = 0 then n else n + 1

/-- Python's `round(x, d)` on a real. -/
noncomputable def pyRoundToR (x : ℝ) (d : ℕ) : ℝ :=
  (pyRoundR (x * (10 : ℝ) ^ d) : ℝ) / (10 : ℝ) ^ d

/-- One element of the `domain_skills` argument:
a dict with `name`, `skill_rating`, `questions_answered`. -/
structure DomainSkill where
  name : String
  skill_rating : ℝ
  questions_answered : ℤ

/-- The dict returned by `calculate_weighted_pass_probability`. -/
structure PassProbResult where
  estimate : ℝ
  confidence : String
  is_active : Bool
  questions_remaining : ℤ
  domain_contributions : List (String × ℝ)

/-- Lookup `dict.get(k, default)` for a dict built by successive assignment in
list order (a later assignment to the same key wins). -/
def dict_get_default (m : List (String × ℝ)) (k : String) (dflt : ℝ) : ℝ :=
  match m.reverse.find? (fun p => p.1 == k) with
  | some p => p.2
  | none => dflt

open Classical in
/-- Function `calculate_weighted_pass_probability`. -/
noncomputable def calculate_weighted_pass_probability (domain_skills : List DomainSkill)
    (total_questions : ℤ) (recent_responses : List Bool)
    (pass_threshold : ℝ) : PassProbResult :=
  let questions_remaining := max 0 (MIN_QUESTIONS_FOR_PREDICTION - total_questions)
  if total_questions < MIN_QUESTIONS_FOR_PREDICTION then
    { estimate := 0, confidence := "low", is_active := false,
      questions_remaining := questions_remaining, domain_contributions := [] }
  else
    let domain_skill_map := domain_skills.map fun d => (d.name, d.skill_rating)
    let weighted_skill :=
      (PL300_DOMAIN_WEIGHTS.map fun p =>
        p.2 * dict_get_default domain_skill_map p.1 (ELO_DEFAULT_SKILL : ℝ)).sum
    let total_weight := (PL300_DOMAIN_WEIGHTS.map fun p => p.2).sum
    let domain_contributions := PL300_DOMAIN_WEIGHTS.map fun p =>
      (p.1, pyRoundToR (dict_get_default domain_skill_map p.1 (ELO_DEFAULT_SKILL : ℝ)) 1)
    let weighted_skill := if 0 < total_weight then weighted_skill / total_weight else weighted_skill
    let base_prob := expected_score weighted_skill (pass_threshold - 200)
    let adjusted_prob :=
      if recent_responses ≠ [] then
        0.7 * base_prob +
          0.3 * ((recent_responses.countP (fun b => b) : ℝ) / (recent_responses.length : ℝ))
      else base_prob
    let estimate := pyRoundToR (min 99 (max 0 (adjusted_prob * 100))) 1
    let confidence :=
      if RELIABLE_PREDICTION_THRESHOLD ≤ total_questions then "high"
      else if 30 ≤ total_questions then "medium"
      else "low"
    { estimate := estimate, confidence := confidence, is_active := true,
      questions_remaining := 0, domain_contributions := domain_contributions }

/-! ## `services/simulation.py`

Purely arithmetic, so embedded over ℚ.  The database is modelled as the
session row (already filtered by `id` and `user_id`, hence an `Option`)
plus the list of question rows joined with their domains. -/

/-- The per-domain quota loop of `create_simulation`: every domain except
the last gets `round(weight * 60)`; the last gets what remains of the
initial `remaining = 60`. -/
def domain_question_counts (remaining : ℤ) : List ℚ → List ℤ
  | [] => []
  | [_] => [remaining]
  | w :: w' :: ws =>
      pyRound (w * 60) :: domain_question_counts (remaining - pyRound (w * 60)) (w' :: ws)

/-- The cache-shortfall generation loop of `create_simulation` for one
domain, counting Content Generator calls.  `fuel` is `count -
generated_count` (the loop guard is `generated_count < count`); `avail`
is `len(available)`; `outcomes k` tells whether the `k`-th generation
attempt produces (and successfully stores) a question. -/
def gen_loop (count : ℕ) (outcomes : ℕ → Bool) : ℕ → ℕ → ℕ
  | 0, _ => 0
  | fuel + 1, avail =>
      if avail < count then
        1 + gen_loop count outcomes fuel (avail + (if outcomes (count - (fuel + 1)) then 1 else 0))
      else 0

/-- Number of Content Generator calls made for a domain with quota
`count` when the cache supplied `avail` questions. -/
def sim_generator_calls (count avail : ℕ) (outcomes : ℕ → Bool) : ℕ :=
  gen_loop count outcomes count avail

/-- One value of the session's sparse `answers` map:
`{question_id, selected_index, time_spent_seconds}`. -/
structure SimAnswer where
  question_id : ℕ
  selected_index : ℤ
  time_spent_seconds : Option ℤ
  deriving Repr, DecidableEq

/-- A per-domain accumulator / stored domain result:
`{domain_name, questions_total, questions_correct, weight}` plus the
`accuracy` later added by `complete_simulation`. -/
structure DomainResult where
  domain_name : String
  questions_total : ℕ
  questions_correct : ℕ
  weight : ℚ
  accuracy : ℚ
  deriving Repr, DecidableEq

/-- A `simulation_sessions` row (the columns the service reads/writes;
`user_id`/`certification_id` filtering is modelled by handing the service
an `Option` row). -/
structure SimSession where
  question_order : List ℕ
  answers : List (ℕ × SimAnswer)
  questions_answered : ℕ
  started_at : ℚ
  is_complete : Bool
  ended_at : Option ℚ
  correct_answers : Option ℕ
  score : Option ℤ
  is_passed : Option Bool
  domain_results : List DomainResult
  deriving Repr, DecidableEq

/-- Python dict assignment `m[k] = v`: overwrite the existing key if
present, otherwise append the new key. -/
def dictInsert (m : List (ℕ × SimAnswer)) (k : ℕ) (v : SimAnswer) : List (ℕ × SimAnswer) :=
  if m.any (fun p => p.1 == k) then m.map (fun p => if p.1 == k then (k, v) else p)
  else m ++ [(k, v)]

/-- Dict lookup `answers.get(str(i))`. -/
def answerAt (answers : List (ℕ × SimAnswer)) (i : ℕ) : Option SimAnswer :=
  (answers.find? (fun p => p.1 == i)).map Prod.snd

/-- Function `submit_sim_answer`: returns `False` if the session row is missing;
otherwise overwrites the answer at `question_index` and stores
`questions_answered = len(answers)`.  Returns the flag and the updated row. -/
def submit_sim_answer (session : Option SimSession) (question_id : ℕ)
    (question_index : ℕ) (selected_index : ℤ) (time_spent_seconds : Option ℤ) :
    Bool × Option SimSession :=
  match session with
  | none => (false, none)
  | some s =>
      let answers := dictInsert s.answers question_index
        { question_id := question_id, selected_index := selected_index,
          time_spent_seconds := time_spent_seconds }
      (true, some { s with answers := answers, questions_answered := answers.length })

/-- A `questions` row joined with its domain (`domains(id, name, weight)`
modelled as name/weight; `none` when the join is empty). -/
structure SimQuestion where
  id : ℕ
  question_text : String
  options : List String
  correct_index : ℤ
  explanation : String
  scenario_text : String
  concept_tag : String
  domain : Option (String × ℚ)
  deriving Repr, DecidableEq

/-- Join default `domain_name = q["domains"]["name"] if q.get("domains") else "Unknown"`. -/
def sim_domain_name (q : SimQuestion) : String :=
  match q.domain with
  | some d => d.1
  | none => "Unknown"

/-- Join default `weight = q["domains"]["weight"] if q.get("domains") else 0.25`. -/
def sim_domain_weight (q : SimQuestion) : ℚ :=
  match q.domain with
  | some d => d.2
  | none => 1/4

/-- The per-`question_order` fetch loop of `complete_simulation`:
look each id up in the store, skipping ids with no row. -/
def sim_fetch_questions (order : List ℕ) (store : List SimQuestion) : List SimQuestion :=
  order.filterMap (fun qid => store.find? (fun q => q.id == qid))

/-- Answer resolution `selected = answer["selected_index"] if answer else -1`. -/
def sim_selected (answers : List (ℕ × SimAnswer)) (i : ℕ) : ℤ :=
  match answerAt answers i with
  | some a => a.selected_index
  | none => -1

/-- One step of the `domain_results` accumulation: create the domain's
bucket on first sight (recording its weight) and bump the counters. -/
def bumpDomain (acc : List DomainResult) (name : String) (w : ℚ) (isc : Bool) :
    List DomainResult :=
  if acc.any (fun d => d.domain_name == name) then
    acc.map (fun d =>
      if d.domain_name == name then
        { d with questions_total := d.questions_total + 1,
                 questions_correct := d.questions_correct + (if isc then 1 else 0) }
      else d)
  else
    acc ++ [{ domain_name := name, questions_total := 1,
              questions_correct := if isc then 1 else 0, weight := w, accuracy := 0 }]

/-- The `domain_results` accumulation loop of `complete_simulation`
(accuracies still 0; they are filled in afterwards). -/
def sim_domain_accs (questions : List SimQuestion) (answers : List (ℕ × SimAnswer)) :
    List DomainResult :=
  questions.enum.foldl
    (fun acc p =>
      bumpDomain acc (sim_domain_name p.2) (sim_domain_weight p.2)
        (sim_selected answers p.1 == p.2.correct_index))
    []

/-- Accuracy fill-in `dr["accuracy"] = round(correct / total * 100, 1) if total > 0 else 0`. -/
def sim_fill_accuracy (d : DomainResult) : DomainResult :=
  { d with accuracy :=
      if 0 < d.questions_total then
        pyRoundTo ((d.questions_correct : ℚ) / (d.questions_total : ℚ) * 100) 1
      else 0 }

/-- Counter `correct_count` of `complete_simulation`. -/
def sim_correct_count (questions : List SimQuestion) (answers : List (ℕ × SimAnswer)) : ℕ :=
  questions.enum.countP (fun p => sim_selected answers p.1 == p.2.correct_index)

/-- The weighted 0–1000 score of `complete_simulation`:
`score = Σ (weight/total_weight) · domain_accuracy · 1000` over the
accumulated domain results (0 when the weights sum to 0), then `round`. -/
def sim_score (questions : List SimQuestion) (answers : List (ℕ × SimAnswer)) : ℤ :=
  let drs := sim_domain_accs questions answers
  let total_weight := (drs.map (fun d => d.weight)).sum
  pyRound
    (if 0 < total_weight then
      (drs.map (fun d =>
        (d.weight / total_weight) *
          (if 0 < d.questions_total then (d.questions_correct : ℚ) / (d.questions_total : ℚ)
           else 0) * 1000)).sum
     else 0)

/-- One element of the per-question breakdown `question_results`. -/
structure QuestionResult where
  index : ℕ
  question_id : ℕ
  question_text : String
  options : List String
  correct_index : ℤ
  selected_index : ℤ
  is_correct : Bool
  explanation : String
  domain : String
  scenario_text : String
  concept_tag : String
  deriving Repr, DecidableEq

/-- The `question_results` list built by `complete_simulation`. -/
def sim_question_results (questions : List SimQuestion) (answers : List (ℕ × SimAnswer)) :
    List QuestionResult :=
  questions.enum.map (fun p =>
    { index := p.1, question_id := p.2.id, question_text := p.2.question_text,
      options := p.2.options, correct_index := p.2.correct_index,
      selected_index := sim_selected answers p.1,
      is_correct := sim_selected answers p.1 == p.2.correct_index,
      explanation := p.2.explanation, domain := sim_domain_name p.2,
      scenario_text := p.2.scenario_text, concept_tag := p.2.concept_tag })

/-- The dict returned by `complete_simulation`. -/
structure SimResult where
  score : ℤ
  is_passed : Bool
  pass_threshold : ℤ
  total_questions : ℕ
  correct_answers : ℕ
  accuracy : ℚ
  time_taken_minutes : ℚ
  domain_results : List DomainResult
  question_results : List QuestionResult
  deriving Repr, DecidableEq

/-- Function `complete_simulation`: `None` if the session row is missing or its
`question_order` is empty (no write); otherwise recompute the results
from the current `answers` and write them back unconditionally.
Returns the result and the updated session row; `now` is the current
time in seconds. -/
def complete_simulation (session : Option SimSession) (store : List SimQuestion)
    (now : ℚ) : Option SimResult × Option SimSession :=
  match session with
  | none => (none, none)
  | some sim =>
      if sim.question_order.isEmpty then (none, some sim)
      else
        let questions := sim_fetch_questions sim.question_order store
        let drs := (sim_domain_accs questions sim.answers).map sim_fill_accuracy
        let correct_count := sim_correct_count questions sim.answers
        let score := sim_score questions sim.answers
        let is_passed : Bool := decide (700 ≤ score)
        let total := questions.length
        let accuracy :=
          if 0 < total then pyRoundTo ((correct_count : ℚ) / (total : ℚ) * 100) 1 else 0
        let time_taken := pyRoundTo ((now - sim.started_at) / 60) 1
        (some { score := score, is_passed := is_passed, pass_threshold := 700,
                total_questions := total, correct_answers := correct_count,
                accuracy := accuracy, time_taken_minutes := time_taken,
                domain_results := drs,
                question_results := sim_question_results questions sim.answers },
         some { sim with
                  is_complete := true, ended_at := some now,
                  correct_answers := some correct_count, score := some score,
                  is_passed := some is_passed, domain_results := drs })

/-! ## `services/question_selector.py` -/

/-- A `questions` row as read by the selector. -/
structure BankQuestion where
  id : ℕ
  domain_id : ℕ
  difficulty_estimate : ℚ
  deriving Repr, DecidableEq

/-- Python's `min(iterable, key=k)`: the first element attaining the
minimal key (CPython keeps the current best and replaces it only on a
strictly smaller key). -/
def min_by_first (key : BankQuestion → ℚ) : List BankQuestion → Option BankQuestion
  | [] => none
  | x :: xs =>
      match min_by_first key xs with
      | none => some x
      | some y => if key y < key x then some y else some x

/-- The candidate list of `select_next_question` step 5: the database
query (same domain, `difficulty_estimate` in
`[skill − 50, skill + 50]`, `limit(10)`; the store list order models the
row order) followed by the Python-side filter dropping already-answered
ids. -/
def cache_candidates (store : List BankQuestion) (answered_ids : List ℕ)
    (domain_id : ℕ) (user_domain_skill : ℚ) : List BankQuestion :=
  let target_low := user_domain_skill - ELO_DIFFICULTY_RANGE
  let target_high := user_domain_skill + ELO_DIFFICULTY_RANGE
  ((store.filter (fun q =>
      q.domain_id == domain_id &&
      decide (target_low ≤ q.difficulty_estimate) &&
      decide (q.difficulty_estimate ≤ target_high))).take 10).filter
    (fun q => !(answered_ids.contains q.id))

/-- The cache phase of `select_next_question`: if the candidate list is
non-empty, serve `min(available, key=|difficulty − skill|)` from the
cache; `none` means the code falls through to Gemini generation
(step 6). -/
def select_from_cache (store : List BankQuestion) (answered_ids : List ℕ)
    (domain_id : ℕ) (user_domain_skill : ℚ) : Option BankQuestion :=
  min_by_first (fun q => |q.difficulty_estimate - user_domain_skill|)
    (cache_candidates store answered_ids domain_id user_domain_skill)

/-! ## Concrete data for counterexamples and witnesses -/

/-- A session that already completed, with a recorded score of 123. -/
def completedSession : SimSession :=
  { question_order := [1], answers := [], questions_answered := 0, started_at := 0,
    is_complete := true, ended_at := some 10, correct_answers := some 1,
    score := some 123, is_passed := some false, domain_results := [] }

/-- A one-question store for the completed session: question 1, correct
option 0, in domain `D` of weight 0.25. -/
def simStore : List SimQuestion :=
  [{ id := 1, question_text := "q", options := ["a", "b"], correct_index := 0,
     explanation := "e", scenario_text := "", concept_tag := "t",
     domain := some ("D", 1/4) }]

/-- Eleven questions of domain 1, all at difficulty 1000 (inside the
window for skill 1000). -/
def limitStore : List BankQuestion :=
  [⟨1, 1, 1000⟩, ⟨2, 1, 1000⟩, ⟨3, 1, 1000⟩, ⟨4, 1, 1000⟩, ⟨5, 1, 1000⟩,
   ⟨6, 1, 1000⟩, ⟨7, 1, 1000⟩, ⟨8, 1, 1000⟩, ⟨9, 1, 1000⟩, ⟨10, 1, 1000⟩,
   ⟨11, 1, 1000⟩]

/-- The learner has answered the first ten of `limitStore`, leaving
question 11 unanswered and in range. -/
def limitAnswered : List ℕ := [1, 2, 3, 4, 5, 6, 7, 8, 9, 10]

/-- A small bank for the selection witness: two domain-1 questions at
difficulties 990 and 1000, one question of another domain. -/
def selStore : List BankQuestion :=
  [⟨1, 1, 990⟩, ⟨2, 1, 1000⟩, ⟨3, 2, 1000⟩]

/-! ## Theorems -/

/-- **C3.** For every real `user_skill`, `question_difficulty` and both
values of `is_correct`, `update_ratings` is a zero-sum exchange:
`newSkill − skill = −(newDifficulty − difficulty)`, and the shift is
`K·(actual − expected)` with `K = 32`. -/
theorem update_ratings_zero_sum (s d : ℝ) (c : Bool) :
    (update_ratings s d c).1 - s = -((update_ratings s d c).2 - d) ∧
    (update_ratings s d c).1 - s =
      32 * ((if c then (1 : ℝ) else 0) - expected_score s d) := by
  constructor <;> simp only [update_ratings, ELO_K_FACTOR] <;> push_cast <;> ring

/-- **C6.** Whenever `total_questions < 20`,
`calculate_weighted_pass_probability` returns estimate 0, confidence
"low", inactive, and `questions_remaining = 20 − total_questions`,
regardless of the domain skills and recent responses. -/
theorem calculate_weighted_pass_probability_gate (ds : List DomainSkill) (t : ℤ)
    (rr : List Bool) (pt : ℝ) (h : t < 20) :
    calculate_weighted_pass_probability ds t rr pt =
      { estimate := 0, confidence := "low", is_active := false,
        questions_remaining := 20 - t, domain_contributions := [] } := by
  have hmax : max (0 : ℤ) (20 - t) = 20 - t := by omega
  have h20 : t < MIN_QUESTIONS_FOR_PREDICTION := h
  simp only [calculate_weighted_pass_probability, MIN_QUESTIONS_FOR_PREDICTION] at h20 ⊢
  rw [if_pos h20, hmax]

/-- Witness for C6 at `total_questions = 19`: the gate fires and reports
one question remaining. -/
theorem calculate_weighted_pass_probability_gate_witness :
    (19 : ℤ) < 20 ∧
    calculate_weighted_pass_probability [] 19 [] 1100 =
      { estimate := 0, confidence := "low", is_active := false,
        questions_remaining := 1, domain_contributions := [] } := by
  refine ⟨by norm_num, ?_⟩
  rw [calculate_weighted_pass_probability_gate [] 19 [] 1100 (by norm_num)]
  norm_num

/-- **C4, counterexample.** The stored mastery is rounded to 3 decimal
places: from `mastery = 0.657`, a correct review stores `0.76`, not the
claimed exact `0.7·0.657 + 0.3 = 0.7599`. -/
theorem update_review_mastery_rounding_counterexample :
    (update_review_step ⟨5/2, 24, 3, 657/1000⟩ true).mastery_score = 19/25 ∧
    (update_review_step ⟨5/2, 24, 3, 657/1000⟩ true).mastery_score ≠
      7/10 * (657/1000) + 3/10 := by
  constructor <;> norm_num [update_review_step, pyRoundTo, pyRound]

/-- **C4, amended.** For an entry with nonnegative interval and ease, the
update is exactly the SM-2 step except that mastery is stored rounded to
3 decimals: correct → `interval = ⌊interval·ease⌋` (pre-update ease),
`ease = min(2.5, ease+0.1)`, `repetitions+1`,
`mastery = round(0.7·mastery + 0.3, 3)`; incorrect → `interval = 24`,
`ease = max(1.3, ease−0.2)`, `mastery = round(0.7·mastery, 3)`; and from
`ease=2.5, interval=24` two correct reviews give intervals 60 then 150. -/
theorem update_review_sm2_step (e : ReviewEntry)
    (h1 : 0 ≤ e.interval_hours) (h2 : 0 ≤ e.ease_factor) :
    update_review_step e true =
      { ease_factor := min (5/2) (e.ease_factor + 1/10),
        interval_hours := ⌊(e.interval_hours : ℚ) * e.ease_factor⌋,
        repetitions := e.repetitions + 1,
        mastery_score := pyRoundTo (7/10 * e.mastery_score + 3/10) 3 } ∧
    update_review_step e false =
      { ease_factor := max (13/10) (e.ease_factor - 2/10),
        interval_hours := 24,
        repetitions := e.repetitions,
        mastery_score := pyRoundTo (7/10 * e.mastery_score) 3 } ∧
    (applyReviews ⟨5/2, 24, 0, 0⟩ [true]).interval_hours = 60 ∧
    (applyReviews ⟨5/2, 24, 0, 0⟩ [true, true]).interval_hours = 150 := by
  have hq : (0 : ℚ) ≤ (e.interval_hours : ℚ) * e.ease_factor :=
    mul_nonneg (by exact_mod_cast h1) h2
  refine ⟨?_, ?_, ?_, ?_⟩
  · simp [update_review_step, ratTrunc, hq]
  · simp [update_review_step]
  · norm_num [applyReviews, update_review_step, pyRoundTo, pyRound, ratTrunc]
  · norm_num [applyReviews, update_review_step, pyRoundTo, pyRound, ratTrunc]

/-- Witness for C4's amended theorem at the freshly enqueued entry. -/
theorem update_review_sm2_step_witness :
    (0 : ℤ) ≤ initReviewEntry.interval_hours ∧ (0 : ℚ) ≤ initReviewEntry.ease_factor ∧
    (update_review_step initReviewEntry true =
      { ease_factor := min (5/2) (initReviewEntry.ease_factor + 1/10),
        interval_hours := ⌊(initReviewEntry.interval_hours : ℚ) * initReviewEntry.ease_factor⌋,
        repetitions := initReviewEntry.repetitions + 1,
        mastery_score := pyRoundTo (7/10 * initReviewEntry.mastery_score + 3/10) 3 } ∧
    update_review_step initReviewEntry false =
      { ease_factor := max (13/10) (initReviewEntry.ease_factor - 2/10),
        interval_hours := 24,
        repetitions := initReviewEntry.repetitions,
        mastery_score := pyRoundTo (7/10 * initReviewEntry.mastery_score) 3 } ∧
    (applyReviews ⟨5/2, 24, 0, 0⟩ [true]).interval_hours = 60 ∧
    (applyReviews ⟨5/2, 24, 0, 0⟩ [true, true]).interval_hours = 150) :=
  ⟨by norm_num [initReviewEntry], by norm_num [initReviewEntry],
   update_review_sm2_step initReviewEntry (by norm_num [initReviewEntry])
     (by norm_num [initReviewEntry])⟩

/-- One review step keeps the ease factor inside `[1.3, 2.5]`. -/
lemma ease_factor_step_bounds (e : ReviewEntry) (b : Bool)
    (h : 13/10 ≤ e.ease_factor ∧ e.ease_factor ≤ 5/2) :
    13/10 ≤ (update_review_step e b).ease_factor ∧
    (update_review_step e b).ease_factor ≤ 5/2 := by
  obtain ⟨hl, hu⟩ := h
  cases b
  · simp only [update_review_step, Bool.false_eq_true, if_false]
    exact ⟨le_max_left _ _, max_le (by norm_num) (by linarith)⟩
  · simp only [update_review_step, if_true]
    exact ⟨le_min (by norm_num) (by linarith), min_le_left _ _⟩

/-- Any finite review sequence keeps the ease factor inside `[1.3, 2.5]`. -/
lemma applyReviews_ease_bounds (outcomes : List Bool) :
    ∀ e : ReviewEntry, 13/10 ≤ e.ease_factor ∧ e.ease_factor ≤ 5/2 →
      13/10 ≤ (applyReviews e outcomes).ease_factor ∧
      (applyReviews e outcomes).ease_factor ≤ 5/2 := by
  induction outcomes with
  | nil => intro e h; simpa [applyReviews] using h
  | cons b bs ih =>
      intro e h
      simpa [applyReviews] using ih _ (ease_factor_step_bounds e b h)

/-- **C5.** Starting from the enqueued entry (`ease = 2.5`), after any
finite sequence of correct/incorrect reviews — hence after each step of
any sequence, via its prefixes `outcomes.take k` — the ease factor stays
in `[1.3, 2.5]`. -/
theorem ease_factor_always_in_bounds (outcomes : List Bool) (k : ℕ) :
    13/10 ≤ (applyReviews initReviewEntry (outcomes.take k)).ease_factor ∧
    (applyReviews initReviewEntry (outcomes.take k)).ease_factor ≤ 5/2 :=
  applyReviews_ease_bounds (outcomes.take k) initReviewEntry
    (by norm_num [initReviewEntry])

/-- **C10.** When no review-queue row matches the (learner, item) pair,
`update_review_after_answer` returns normally and leaves the store
unchanged: no row is created or modified, for either outcome. -/
theorem update_review_after_answer_missing_noop (store : List QueueRow)
    (uid qid : String) (b : Bool)
    (h : store.find? (fun r => r.user_id == uid && r.question_id == qid) = none) :
    update_review_after_answer store uid qid b = store := by
  simp [update_review_after_answer, h]

/-- Witness for C10: a store holding an entry for a different learner is
untouched. -/
theorem update_review_after_answer_missing_noop_witness :
    ([⟨1, "u1", "q1", initReviewEntry⟩] : List QueueRow).find?
        (fun r => r.user_id == "u2" && r.question_id == "q1") = none ∧
    update_review_after_answer [⟨1, "u1", "q1", initReviewEntry⟩] "u2" "q1" true =
      [⟨1, "u1", "q1", initReviewEntry⟩] := by
  have h : ([⟨1, "u1", "q1", initReviewEntry⟩] : List QueueRow).find?
      (fun r => r.user_id == "u2" && r.question_id == "q1") = none := by
    simp
  exact ⟨h, update_review_after_answer_missing_noop _ _ _ _ h⟩

/-- The quota loop hands the last domain exactly what is left, so the
counts always sum to the initial `remaining`. -/
lemma domain_question_counts_sum (ws : List ℚ) (r : ℤ) (h : ws ≠ []) :
    (domain_question_counts r ws).sum = r := by
  induction ws generalizing r with
  | nil => exact absurd rfl h
  | cons w tail ih =>
      cases tail with
      | nil => simp [domain_question_counts]
      | cons w' ws' =>
          have := ih (r - pyRound (w * 60)) (by simp)
          simp only [domain_question_counts, List.sum_cons, this]
          ring

/-- **C7.** For every non-empty domain list whose weights sum to 1, the
per-domain quotas (`round(weight·60)` for all but the last domain, which
absorbs the remainder) sum exactly to 60. -/
theorem simulation_quota_sum (ws : List ℚ) (h1 : ws ≠ []) (h2 : ws.sum = 1) :
    (domain_question_counts 60 ws).sum = 60 :=
  domain_question_counts_sum ws 60 h1

/-- Witness for C7 at the PL-300 weights `[0.275, 0.275, 0.275, 0.175]`. -/
theorem simulation_quota_sum_witness :
    (([11/40, 11/40, 11/40, 7/40] : List ℚ) ≠ [] ∧
      ([11/40, 11/40, 11/40, 7/40] : List ℚ).sum = 1) ∧
    (domain_question_counts 60 [11/40, 11/40, 11/40, 7/40]).sum = 60 :=
  ⟨⟨by simp, by norm_num⟩, simulation_quota_sum _ (by simp) (by norm_num)⟩

/-- **C8, counterexample.** With quota `count = 2` and one cached item
(shortfall 1), a generator that keeps failing is called twice — more
than the shortfall: the loop guard is `generated_count < count`, not
`generated_count < shortfall`. -/
theorem sim_generator_calls_exceed_shortfall :
    sim_generator_calls 2 1 (fun _ => false) = 2 ∧
    ¬ sim_generator_calls 2 1 (fun _ => false) ≤ 2 - 1 := by
  decide

/-- The generation loop makes at most `fuel` calls. -/
lemma gen_loop_le_fuel (count : ℕ) (outcomes : ℕ → Bool) :
    ∀ fuel avail, gen_loop count outcomes fuel avail ≤ fuel := by
  intro fuel
  induction fuel with
  | zero => intro avail; simp [gen_loop]
  | succ n ih =>
      intro avail
      by_cases h : avail < count
      · simp only [gen_loop, if_pos h]
        have := ih (avail + if outcomes (count - (n + 1)) then 1 else 0)
        omega
      · simp [gen_loop, h]

/-- **C8, amended.** For every domain quota `count`, cache contribution
`avail`, and outcome sequence, the number of Content Generator calls is
at most `count`: generation stops once the quota is filled or the total
number of attempts reaches the quota — bounded, but by the quota rather
than by the shortfall. -/
theorem sim_generator_calls_le_quota (count avail : ℕ) (outcomes : ℕ → Bool) :
    sim_generator_calls count avail outcomes ≤ count :=
  gen_loop_le_fuel count outcomes count avail

/-- Python's `min(·, key=·)` returns an element with minimal key, and
every earlier element of the list has a strictly larger key (first-seen
tie-breaking). -/
lemma min_by_first_spec (key : BankQuestion → ℚ) :
    ∀ l : List BankQuestion, l ≠ [] →
      ∃ q l₁ l₂, min_by_first key l = some q ∧ l = l₁ ++ q :: l₂ ∧
        (∀ x ∈ l, key q ≤ key x) ∧ (∀ x ∈ l₁, key q < key x) := by
  intro l
  induction l with
  | nil => exact fun h => absurd rfl h
  | cons x xs ih =>
      intro _
      cases xs with
      | nil =>
          refine ⟨x, [], [], by simp [min_by_first], by simp, ?_, by simp⟩
          intro z hz
          rw [List.mem_singleton.1 hz]
      | cons y ys =>
          obtain ⟨q, l₁, l₂, heq, hsplit, hmin, hfirst⟩ := ih (by simp)
          have hstep : min_by_first key (x :: y :: ys) =
              match min_by_first key (y :: ys) with
              | none => some x
              | some z => if key z < key x then some z else some x := rfl
          by_cases hlt : key q < key x
          · refine ⟨q, x :: l₁, l₂, ?_, by simp [hsplit], ?_, ?_⟩
            · rw [hstep, heq]; simp only [if_pos hlt]
            · intro z hz
              rcases List.mem_cons.1 hz with hz | hz
              · rw [hz]; exact le_of_lt hlt
              · exact hmin z hz
            · intro z hz
              rcases List.mem_cons.1 hz with hz | hz
              · rw [hz]; exact hlt
              · exact hfirst z hz
          · refine ⟨x, [], y :: ys, ?_, by simp, ?_, by simp⟩
            · rw [hstep, heq]; simp only [if_neg hlt]
            · intro z hz
              rcases List.mem_cons.1 hz with hz | hz
              · rw [hz]
              · exact le_trans (not_lt.1 hlt) (hmin z hz)

/-- Every candidate of the cache query is an in-store, same-domain,
unanswered question whose difficulty lies in the ±50 window. -/
lemma cache_candidates_sound (store : List BankQuestion) (answered : List ℕ)
    (d : ℕ) (skill : ℚ) :
    ∀ q ∈ cache_candidates store answered d skill,
      q ∈ store ∧ q.domain_id = d ∧ answered.contains q.id = false ∧
      skill - 50 ≤ q.difficulty_estimate ∧ q.difficulty_estimate ≤ skill + 50 := by
  intro q hq
  simp only [cache_candidates, ELO_DIFFICULTY_RANGE] at hq
  obtain ⟨htake, hans⟩ := List.mem_filter.1 hq
  obtain ⟨hstore, hpred⟩ := List.mem_filter.1 (List.take_subset _ _ htake)
  simp only [Bool.and_eq_true, beq_iff_eq, decide_eq_true_eq] at hpred
  refine ⟨hstore, hpred.1.1, ?_, hpred.1.2, hpred.2⟩
  simpa using hans

/-- **C9, counterexample.** Eleven same-domain in-window questions, the
first ten answered: the `limit(10)` query returns only answered rows, so
the cache phase comes back empty (`none`) and the code proceeds to
generation — even though unanswered in-window question 11 exists. -/
theorem select_from_cache_limit_counterexample :
    (∃ q ∈ limitStore, q.domain_id = 1 ∧ q.id ∉ limitAnswered ∧
      (1000 : ℚ) - 50 ≤ q.difficulty_estimate ∧ q.difficulty_estimate ≤ 1000 + 50) ∧
    select_from_cache limitStore limitAnswered 1 1000 = none := by
  constructor
  · exact ⟨⟨11, 1, 1000⟩, by norm_num [limitStore], rfl, by norm_num [limitAnswered],
      by norm_num, by norm_num⟩
  · norm_num [select_from_cache, cache_candidates, min_by_first, limitStore,
      limitAnswered, ELO_DIFFICULTY_RANGE, List.filter, List.take]

/-- **C9, amended.** If among the first ten in-window same-domain store
rows returned by the capped query at least one is unanswered, the
selector serves a cached question: an in-store, same-domain, unanswered
question inside `[skill − 50, skill + 50]` minimizing
`|difficulty − skill|` over those candidates, ties broken by first-seen
order, without calling the Content Generator. -/
theorem select_from_cache_serves_closest (store : List BankQuestion)
    (answered : List ℕ) (d : ℕ) (skill : ℚ)
    (h : cache_candidates store answered d skill ≠ []) :
    ∃ q l₁ l₂,
      select_from_cache store answered d skill = some q ∧
      q ∈ store ∧ q.domain_id = d ∧ answered.contains q.id = false ∧
      skill - 50 ≤ q.difficulty_estimate ∧ q.difficulty_estimate ≤ skill + 50 ∧
      cache_candidates store answered d skill = l₁ ++ q :: l₂ ∧
      (∀ x ∈ cache_candidates store answered d skill,
        |q.difficulty_estimate - skill| ≤ |x.difficulty_estimate - skill|) ∧
      (∀ x ∈ l₁, |q.difficulty_estimate - skill| < |x.difficulty_estimate - skill|) := by
  obtain ⟨q, l₁, l₂, heq, hsplit, hmin, hfirst⟩ :=
    min_by_first_spec (fun q => |q.difficulty_estimate - skill|) _ h
  have hq : q ∈ cache_candidates store answered d skill := by
    rw [hsplit]; exact List.mem_append_right _ (List.mem_cons_self _ _)
  obtain ⟨h1, h2, h3, h4, h5⟩ := cache_candidates_sound store answered d skill q hq
  exact ⟨q, l₁, l₂, heq, h1, h2, h3, h4, h5, hsplit, hmin, hfirst⟩

/-- Witness for C9's amended theorem: with two unanswered domain-1
questions at difficulties 990 and 1000 and skill 1000, a cached
question is served. -/
theorem select_from_cache_serves_closest_witness :
    cache_candidates selStore [] 1 1000 ≠ [] ∧
    (∃ q l₁ l₂,
      select_from_cache selStore [] 1 1000 = some q ∧
      q ∈ selStore ∧ q.domain_id = 1 ∧ List.contains [] q.id = false ∧
      (1000 : ℚ) - 50 ≤ q.difficulty_estimate ∧ q.difficulty_estimate ≤ 1000 + 50 ∧
      cache_candidates selStore [] 1 1000 = l₁ ++ q :: l₂ ∧
      (∀ x ∈ cache_candidates selStore [] 1 1000,
        |q.difficulty_estimate - (1000 : ℚ)| ≤ |x.difficulty_estimate - 1000|) ∧
      (∀ x ∈ l₁, |q.difficulty_estimate - (1000 : ℚ)| < |x.difficulty_estimate - 1000|)) := by
  have hval : cache_candidates selStore [] 1 1000 = [⟨1, 1, 990⟩, ⟨2, 1, 1000⟩] := by
    norm_num [cache_candidates, selStore, ELO_DIFFICULTY_RANGE, List.filter, List.take]
  have h : cache_candidates selStore [] 1 1000 ≠ [] := by rw [hval]; simp
  exact ⟨h, select_from_cache_serves_closest selStore [] 1 1000 h⟩

/-- Replacing the value of a present key makes it what `find?` returns. -/
lemma find?_replace_self (k : ℕ) (v : SimAnswer) :
    ∀ m : List (ℕ × SimAnswer), m.any (fun p => p.1 == k) = true →
      (m.map (fun p => if p.1 == k then (k, v) else p)).find? (fun p => p.1 == k) =
        some (k, v) := by
  intro m
  induction m with
  | nil => simp
  | cons p ps ih =>
      intro h
      by_cases hp : (p.1 == k) = true
      · rw [List.map_cons, if_pos hp, List.find?_cons_of_pos _ (by simp)]
      · have hps : ps.any (fun p => p.1 == k) = true := by
          simpa [List.any_cons, hp] using h
        rw [List.map_cons, if_neg hp, List.find?_cons_of_neg _ (by simpa using hp)]
        exact ih hps

/-- Appending a fresh key makes it what `find?` returns. -/
lemma find?_append_self (k : ℕ) (v : SimAnswer) :
    ∀ m : List (ℕ × SimAnswer), m.any (fun p => p.1 == k) = false →
      (m ++ [(k, v)]).find? (fun p => p.1 == k) = some (k, v) := by
  intro m
  induction m with
  | nil => simp
  | cons p ps ih =>
      intro h
      rw [List.any_cons] at h
      obtain ⟨hp, hps⟩ := Bool.or_eq_false_iff.1 h
      rw [List.cons_append, List.find?_cons_of_neg _ (by simp [hp])]
      exact ih hps

/-- Dict assignment followed by lookup of the same key yields the newly
assigned value. -/
lemma answerAt_dictInsert (m : List (ℕ × SimAnswer)) (k : ℕ) (v : SimAnswer) :
    answerAt (dictInsert m k v) k = some v := by
  unfold dictInsert answerAt
  by_cases h : m.any (fun p => p.1 == k) = true
  · rw [if_pos h, find?_replace_self k v m h]; rfl
  · have h0 : m.any (fun p => p.1 == k) = false := Bool.eq_false_iff.2 h
    rw [if_neg h, find?_append_self k v m h0]; rfl

/-- **C2, counterexample.** Submitting an answer to an
already-completed session changes the stored session row (the claim
says sessions are immutable after completion). -/
theorem submit_sim_answer_completed_counterexample :
    completedSession.is_complete = true ∧
    (submit_sim_answer (some completedSession) 1 0 2 none).2 ≠ some completedSession := by
  constructor
  · rfl
  · simp [submit_sim_answer, completedSession, dictInsert]

/-- **C2, amended.** `submit_sim_answer` only checks that the session
row exists: even for a session in the Completed state it succeeds and
overwrites the answer at the given index (leaving `question_order`,
score, pass flag and domain results unchanged) — immutability after
completion is not enforced. -/
theorem submit_sim_answer_mutates_completed (s : SimSession) (qid qidx : ℕ)
    (sel : ℤ) (t : Option ℤ) (hc : s.is_complete = true) :
    ∃ s', submit_sim_answer (some s) qid qidx sel t = (true, some s') ∧
      answerAt s'.answers qidx =
        some { question_id := qid, selected_index := sel, time_spent_seconds := t } ∧
      s'.is_complete = true ∧ s'.question_order = s.question_order ∧
      s'.score = s.score ∧ s'.is_passed = s.is_passed ∧
      s'.domain_results = s.domain_results :=
  ⟨_, rfl, answerAt_dictInsert s.answers qidx _, hc, rfl, rfl, rfl, rfl⟩

/-- Witness for C2's amended theorem at the concrete completed session. -/
theorem submit_sim_answer_mutates_completed_witness :
    completedSession.is_complete = true ∧
    (∃ s', submit_sim_answer (some completedSession) 1 0 2 none = (true, some s') ∧
      answerAt s'.answers 0 =
        some { question_id := 1, selected_index := 2, time_spent_seconds := none } ∧
      s'.is_complete = true ∧ s'.question_order = completedSession.question_order ∧
      s'.score = completedSession.score ∧ s'.is_passed = completedSession.is_passed ∧
      s'.domain_results = completedSession.domain_results) :=
  ⟨rfl, submit_sim_answer_mutates_completed completedSession 1 0 2 none rfl⟩

/-- **C1, counterexample.** Completing an already-completed session does
not fail: it returns a fresh result and overwrites the stored score
(123 → 0, since the current answers map is empty), so the Completed
transition logic runs again. -/
theorem complete_simulation_overwrite_counterexample :
    completedSession.is_complete = true ∧ completedSession.score = some 123 ∧
    (complete_simulation (some completedSession) simStore 60).1 ≠ none ∧
    ((complete_simulation (some completedSession) simStore 60).2.map SimSession.score) =
      some (some 0) := by
  refine ⟨rfl, rfl, ?_, ?_⟩
  · simp [complete_simulation, completedSession]
  · norm_num [complete_simulation, completedSession, simStore, sim_fetch_questions,
      sim_domain_accs, sim_correct_count, sim_score, sim_fill_accuracy, sim_selected,
      answerAt, bumpDomain, sim_domain_name, sim_domain_weight, pyRound, pyRoundTo,
      List.enum, List.find?, List.filterMap, List.foldl, List.countP]

/-- **C1, amended.** `complete_simulation` never checks the completion
flag: on a session already in the Completed state (with a non-empty
question order) it succeeds again, recomputes the score from the
current answers, and overwrites the stored score — the completion
transition is unguarded rather than once-only. -/
theorem complete_simulation_rescores_completed (s : SimSession)
    (store : List SimQuestion) (now : ℚ)
    (hc : s.is_complete = true) (hq : s.question_order ≠ []) :
    (complete_simulation (some s) store now).1 ≠ none ∧
    ((complete_simulation (some s) store now).2.map SimSession.is_complete) = some true ∧
    ((complete_simulation (some s) store now).2.map SimSession.score) =
      some (some (sim_score (sim_fetch_questions s.question_order store) s.answers)) := by
  have hq' : s.question_order.isEmpty = false := by
    cases hqo : s.question_order with
    | nil => exact absurd hqo hq
    | cons a l => rfl
  refine ⟨?_, ?_, ?_⟩ <;> simp [complete_simulation, hq']

/-- Witness for C1's amended theorem at the concrete completed session. -/
theorem complete_simulation_rescores_completed_witness :
    completedSession.is_complete = true ∧ completedSession.question_order ≠ [] ∧
    ((complete_simulation (some completedSession) simStore 60).1 ≠ none ∧
    ((complete_simulation (some completedSession) simStore 60).2.map
        SimSession.is_complete) = some true ∧
    ((complete_simulation (some completedSession) simStore 60).2.map SimSession.score) =
      some (some (sim_score
        (sim_fetch_questions completedSession.question_order simStore)
        completedSession.answers))) :=
  ⟨rfl, by simp [completedSession],
   complete_simulation_rescores_completed completedSession simStore 60 rfl
     (by simp [completedSession])⟩

end CertAI
